import Mathlib

/-!
Verification development for the crawler repository's Content Acquisition and
Transformation Pipeline.

The Python sources under `src/crawl/` are shallowly embedded here:

* pure helper functions become Lean functions over `String` and `List Char`;
* `BeautifulSoup` documents are embedded as rose trees (`Node` / `Forest`);
  parsing a serialized tree is treated as the identity, and `find_all`,
  `get_text(strip=True)` and `decompose` are modelled by their documented
  semantics (preorder element search, concatenation of stripped descendant
  strings, subtree removal);
* network calls (the `aiohttp` HEAD probe, the browser automation steps) are
  modelled as explicit outcome parameters, so that each function of the
  pipeline stays a total function of its inputs;
* Python string operations (`lower`, `strip`, `in`, `endswith`, `split`) are
  re-implemented over `List Char` with ASCII case folding, which is exact for
  every fixed indicator and extension list of the source.
-/

/-! ## Python string primitives -/

/-- ASCII lowercasing of one character, as `str.lower` acts on the ASCII
range (every fixed phrase, extension and content type in the source is
ASCII). -/
def asciiLower (c : Char) : Char :=
  if 'A' ≤ c && c ≤ 'Z' then Char.ofNat (c.toNat + 32) else c

/-- Python `s.lower()`. -/
def pyLower (s : String) : String := ⟨s.data.map asciiLower⟩

/-- Python whitespace class (`str.strip`, regex `\s`) over ASCII. -/
def isPyWs (c : Char) : Bool :=
  c == ' ' || c == '\t' || c == '\n' || c == '\r' || c == '\x0b' || c == '\x0c'

/-- Strip leading and trailing whitespace from a character list. -/
def stripChars (l : List Char) : List Char :=
  ((l.dropWhile isPyWs).reverse.dropWhile isPyWs).reverse

/-- Python `s.strip()`. -/
def pyStrip (s : String) : String := ⟨stripChars s.data⟩

/-- Boolean prefix test on character lists. -/
def isPrefixOfB : List Char → List Char → Bool
  | [], _ => true
  | _ :: _, [] => false
  | a :: as, b :: bs => a == b && isPrefixOfB as bs

/-- Boolean substring test on character lists (`pat` occurs inside `hay`). -/
def infixOfB (pat hay : List Char) : Bool :=
  match hay with
  | [] => pat.isEmpty
  | c :: rest => isPrefixOfB pat (c :: rest) || infixOfB pat rest

/-- Python `pat in hay` on strings. -/
def pyContains (hay pat : String) : Bool := infixOfB pat.data hay.data

/-- Python `s.endswith(suffix)`. -/
def pyEndsWith (s suffix : String) : Bool :=
  isPrefixOfB suffix.data.reverse s.data.reverse

/-- Python `s.startswith(pre)`. -/
def pyStartsWith (s pre : String) : Bool := isPrefixOfB pre.data s.data

/-- Python `s.split()`: the whitespace-separated words of `s`. -/
def wordsOf : List Char → List (List Char)
  | [] => []
  | c :: cs =>
    if isPyWs c then wordsOf cs
    else (c :: cs.takeWhile (fun x => !isPyWs x)) :: wordsOf (cs.dropWhile (fun x => !isPyWs x))
termination_by l => l.length
decreasing_by
  · simp only [List.length_cons]
    exact Nat.lt_succ_of_le (Nat.le_refl _)
  · simp only [List.length_cons]
    exact Nat.lt_succ_of_le (List.dropWhile_sublist _).length_le

/-! ## `src/crawl/detection.py` -/

/-- Configuration dataclass of `detection.py` (its module-level instance uses
the default threshold 4). -/
structure DetectionConfig where
  min_login_indicators : Nat := 4
deriving Repr, DecidableEq

/-- File extensions for downloadable files (`DOWNLOADABLE_EXTENSIONS`). -/
def DOWNLOADABLE_EXTENSIONS : List String :=
  [".pdf", ".doc", ".docx", ".xls", ".xlsx", ".ppt", ".pptx",
   ".zip", ".rar", ".7z", ".tar", ".gz", ".bz2",
   ".jpg", ".jpeg", ".png", ".gif", ".bmp", ".tiff",
   ".mp4", ".avi", ".mov", ".wmv", ".flv", ".webm",
   ".mp3", ".wav", ".flac", ".aac", ".ogg",
   ".txt", ".csv", ".json", ".xml", ".sql"]

/-- Content types for downloadable files (`DOWNLOADABLE_CONTENT_TYPES`). -/
def DOWNLOADABLE_CONTENT_TYPES : List String :=
  ["application/pdf", "application/msword", "application/vnd.openxmlformats-officedocument",
   "application/vnd.ms-excel", "application/vnd.ms-powerpoint", "application/zip",
   "application/octet-stream", "image/", "video/", "audio/", "application/json",
   "text/csv", "application/xml"]

/-- Strong login-wall phrases (`STRONG_LOGIN_INDICATORS`). -/
def STRONG_LOGIN_INDICATORS : List String :=
  ["please log in", "please sign in", "login required", "sign in required",
   "authentication required", "access denied", "members only",
   "401 unauthorized", "403 forbidden", "access restricted",
   "subscription required", "premium content", "paywall"]

/-- Weak login-form indicator words (`LOGIN_FORM_INDICATORS`). -/
def LOGIN_FORM_INDICATORS : List String :=
  ["password", "username", "login", "sign in", "log in"]

/-- `is_downloadable_file(url)`: the URL's parsed path (`urlparse(url).path`,
taken here as the argument, URL parsing being standard-library code outside
the repository) is lowercased and tested against every known extension. -/
def is_downloadable_file (path : String) : Bool :=
  DOWNLOADABLE_EXTENSIONS.any (fun ext => pyEndsWith (pyLower path) ext)

/-- `check_content_type(url)`: the HEAD probe's outcome is the argument —
`some ct` when the request succeeded with (possibly absent, then empty)
`Content-Type` header `ct`, `none` when any exception occurred. On success
the lowercased header is matched against the downloadable content-type
substrings; on failure the function catches the exception and returns
`(False, "")`. -/
def check_content_type (probe : Option String) : Bool × String :=
  match probe with
  | some ct =>
    let contentType := pyLower ct
    (DOWNLOADABLE_CONTENT_TYPES.any (fun dt => pyContains contentType dt), contentType)
  | none => (false, "")

/-- `check_if_downloadable(url)`: extension check first, content-type probe
only when it fails. The second component counts how many times
`check_content_type` was awaited (0 or 1), making the short-circuit
observable. -/
def check_if_downloadable (path : String) (probe : Option String) : Bool × Nat :=
  if is_downloadable_file path then (true, 0)
  else ((check_content_type probe).fst, 1)

/-- `check_for_login_screen(html)`: lowercase the markup; any strong phrase
present returns true at once, otherwise the count of weak indicator words
present is compared with the configured threshold. -/
def check_for_login_screen (cfg : DetectionConfig) (html : String) : Bool :=
  let low := pyLower html
  if STRONG_LOGIN_INDICATORS.any (fun ind => pyContains low ind) then true
  else decide (cfg.min_login_indicators ≤ LOGIN_FORM_INDICATORS.countP (fun ind => pyContains low ind))

/-! ## Claims C1, C2, C3, C7 -/

/-- C1: for every URL whose parsed path, lowercased, ends with one of the
fixed recognized extensions, `check_if_downloadable` returns `True` by the
extension check alone and the Content-Type HEAD probe is never invoked
(probe-call counter 0), whatever the probe would have answered. -/
theorem extension_match_downloads_without_probe (path : String) (probe : Option String)
    (h : DOWNLOADABLE_EXTENSIONS.any (fun ext => pyEndsWith (pyLower path) ext) = true) :
    check_if_downloadable path probe = (true, 0) := by
  unfold check_if_downloadable is_downloadable_file
  simp [h]

/-- Witness for C1 at the concrete path of `https://example.com/files/Report.PDF`. -/
theorem extension_match_downloads_without_probe_witness :
    (DOWNLOADABLE_EXTENSIONS.any (fun ext => pyEndsWith (pyLower "/files/Report.PDF") ext) = true)
      ∧ check_if_downloadable "/files/Report.PDF" (some "text/html") = (true, 0) :=
  ⟨by decide, extension_match_downloads_without_probe "/files/Report.PDF" (some "text/html") (by decide)⟩

/-- C2: any markup containing (after lowercasing) one of the strong
indicator phrases is flagged as a login wall, whatever the weak-indicator
count and threshold. -/
theorem strong_indicator_flags_wall (cfg : DetectionConfig) (html : String)
    (h : STRONG_LOGIN_INDICATORS.any (fun ind => pyContains (pyLower html) ind) = true) :
    check_for_login_screen cfg html = true := by
  unfold check_for_login_screen
  simp [h]

/-- Witness for C2 on markup with a strong phrase and zero weak indicators,
at threshold 4. -/
theorem strong_indicator_flags_wall_witness :
    (STRONG_LOGIN_INDICATORS.any
        (fun ind => pyContains (pyLower "<p>Access Denied.</p>") ind) = true)
      ∧ check_for_login_screen {} "<p>Access Denied.</p>" = true :=
  ⟨by decide, strong_indicator_flags_wall {} "<p>Access Denied.</p>" (by decide)⟩

/-- C3: with no strong indicator present, markup with exactly threshold − 1
distinct weak indicators is not flagged and markup with exactly threshold
distinct weak indicators is flagged (threshold at least 1; the module
default is 4). -/
theorem weak_indicator_threshold_boundary (cfg : DetectionConfig) (a b : String)
    (hmin : 1 ≤ cfg.min_login_indicators)
    (haStrong : STRONG_LOGIN_INDICATORS.any (fun ind => pyContains (pyLower a) ind) = false)
    (haCount : LOGIN_FORM_INDICATORS.countP (fun ind => pyContains (pyLower a) ind)
        = cfg.min_login_indicators - 1)
    (hbStrong : STRONG_LOGIN_INDICATORS.any (fun ind => pyContains (pyLower b) ind) = false)
    (hbCount : LOGIN_FORM_INDICATORS.countP (fun ind => pyContains (pyLower b) ind)
        = cfg.min_login_indicators) :
    check_for_login_screen cfg a = false ∧ check_for_login_screen cfg b = true := by
  unfold check_for_login_screen
  constructor
  · simp only [haStrong, Bool.false_eq_true, if_false, haCount,
      decide_eq_false_iff_not]
    omega
  · simp only [hbStrong, Bool.false_eq_true, if_false, hbCount,
      decide_eq_true_eq]
    exact Nat.le_refl _

/-- Witness for C3 at the default threshold 4: three weak indicators do not
trigger detection, four do. -/
theorem weak_indicator_threshold_boundary_witness :
    check_for_login_screen {} "password username login" = false
      ∧ check_for_login_screen {} "password username login sign in" = true := by
  have h := weak_indicator_threshold_boundary {}
    "password username login" "password username login sign in"
    (by decide) (by decide) (by decide) (by decide) (by decide)
  exact h

/-- C7: when the URL is not matched by the extension check and the HEAD
probe fails with any exception, `check_content_type` returns `(False, "")`
instead of raising and the classification decision is Render
(`check_if_downloadable` returns `False`). -/
theorem probe_failure_falls_back_to_render (path : String)
    (h : is_downloadable_file path = false) :
    check_content_type none = (false, "")
      ∧ (check_if_downloadable path none).fst = false := by
  refine ⟨rfl, ?_⟩
  unfold check_if_downloadable
  simp [h, check_content_type]

/-- Witness for C7 at the concrete path of `https://example.com/index.html`. -/
theorem probe_failure_falls_back_to_render_witness :
    is_downloadable_file "/index.html" = false
      ∧ (check_content_type none = (false, "")
          ∧ (check_if_downloadable "/index.html" none).fst = false) :=
  ⟨by decide, probe_failure_falls_back_to_render "/index.html" (by decide)⟩

/-! ## The document model

BeautifulSoup documents are rose trees: a node is a text string or an element
with a tag, attributes and children; a parsed document is a forest (the
top-level nodes). -/

/-- One node of a parsed document. -/
inductive Node where
  | text (s : String)
  | elem (tag : String) (attrs : List (String × String)) (children : List Node)
deriving Repr

/-- A parsed document: its top-level nodes in order. -/
abbrev Forest := List Node

/-- Tag name of a node (`element.name`; text nodes have none). -/
def Node.tagOf : Node → String
  | .text _ => ""
  | .elem t _ _ => t

/-- Child list of a node. -/
def Node.children : Node → Forest
  | .text _ => []
  | .elem _ _ cs => cs

/-- Attribute list of a node (`element.attrs`). -/
def Node.attrsOf : Node → List (String × String)
  | .text _ => []
  | .elem _ a _ => a

/-- Attribute lookup, `element.get(key)`. -/
def Node.getAttr (n : Node) (key : String) : Option String :=
  n.attrsOf.lookup key

/-- All descendant text strings of a forest in document order (BeautifulSoup's
`_all_strings`). -/
def Forest.strings : Forest → List String
  | [] => []
  | .text s :: cs => s :: Forest.strings cs
  | .elem _ _ kids :: cs => Forest.strings kids ++ Forest.strings cs

/-- Concatenate the stripped strings of a list (the body of
`get_text(separator="", strip=True)`, which joins each string stripped,
empty ones contributing nothing). -/
def joinStripC : List String → List Char
  | [] => []
  | s :: r => stripChars s.data ++ joinStripC r

/-- `element.get_text(strip=True)` of one node. -/
def getTextStrip (n : Node) : String :=
  match n with
  | .text s => pyStrip s
  | .elem _ _ kids => ⟨joinStripC (Forest.strings kids)⟩

/-- `soup.find_all(...)` over a forest: every element whose tag satisfies
`p`, in document (preorder) order. `find_all` on an element searches its
descendants, hence `Forest.findAll p n.children` below for per-element
searches. -/
def Forest.findAll (p : String → Bool) : Forest → List Node
  | [] => []
  | .text _ :: cs => Forest.findAll p cs
  | .elem t a kids :: cs =>
      (if p t then [Node.elem t a kids] else []) ++ Forest.findAll p kids ++ Forest.findAll p cs

/-- Serialization of attributes, for `str(soup)`. -/
def renderAttrs : List (String × String) → String
  | [] => ""
  | (k, v) :: r => " " ++ k ++ "=\x22" ++ v ++ "\x22" ++ renderAttrs r

/-- Serialization of a forest, `str(soup)` (modulo entity escaping and
void-element forms, which re-parse to the same tree). -/
def renderForest : Forest → String
  | [] => ""
  | .text s :: cs => s ++ renderForest cs
  | .elem t a kids :: cs =>
      "<" ++ t ++ renderAttrs a ++ ">" ++ renderForest kids ++ "</" ++ t ++ ">" ++ renderForest cs

/-- Structural induction over forests that follows the recursion pattern of
the definitions above (nested lists prevent Lean's automation from deriving
it directly). -/
theorem Forest.scheme (P : Forest → Prop) (h1 : P [])
    (h2 : ∀ s cs, P cs → P (.text s :: cs))
    (h3 : ∀ t a kids cs, P kids → P cs → P (.elem t a kids :: cs)) : ∀ f, P f
  | [] => h1
  | .text s :: cs => h2 s cs (Forest.scheme P h1 h2 h3 cs)
  | .elem t a kids :: cs =>
      h3 t a kids cs (Forest.scheme P h1 h2 h3 kids) (Forest.scheme P h1 h2 h3 cs)

/-! ## `src/crawl/clean/html_cleaner.py` -/

/-- Unwanted tags removed by `clean_html`. -/
def unwantedTags : List String :=
  ["script", "style", "nav", "header", "footer",
   "aside", "iframe", "noscript", "meta", "link"]

/-- Media tags whose presence as a descendant keeps an otherwise-empty
element alive (`element.find_all(['img', 'br', 'hr'])`). -/
def mediaTagP (t : String) : Bool := t == "img" || t == "br" || t == "hr"

/-- First pass of `clean_html`: decompose every element whose tag is in
`unwanted_tags` (decomposing removes the whole subtree; nested unwanted
elements are gone with their ancestor). -/
def removeTags : Forest → Forest
  | [] => []
  | .text s :: cs => .text s :: removeTags cs
  | .elem t a kids :: cs =>
      if unwantedTags.contains t then removeTags cs
      else .elem t a (removeTags kids) :: removeTags cs

/-- Third pass of `clean_html`: decompose every element with no stripped
text and no `img`/`br`/`hr` descendant. The source iterates a preorder
snapshot and mutates in place; since a removed subtree has only
whitespace strings and no media element, no removal changes any other
element's condition, and the loop's net effect is this pure filter.
The second pass (comment removal) matches no node produced by the parser —
its test `text.strip().startswith('<!--')` never holds for a parsed comment,
whose string excludes the delimiters — and is a no-op, so comments are not
modelled. -/
def removeEmpty : Forest → Forest
  | [] => []
  | .text s :: cs => .text s :: removeEmpty cs
  | .elem t a kids :: cs =>
      if (joinStripC (Forest.strings kids)).isEmpty && (Forest.findAll mediaTagP kids).isEmpty
      then removeEmpty cs
      else .elem t a (removeEmpty kids) :: removeEmpty cs

/-- Tree-level effect of `clean_html`: unwanted tags removed, then empty
elements removed. -/
def cleanForest (f : Forest) : Forest := removeEmpty (removeTags f)

/-- `clean_html(html_content)` returning `str(soup)`; the guard
`if not html_content: return ""` is the empty-forest case. -/
def clean_html (f : Forest) : String := renderForest (cleanForest f)

/-! ## Text extraction and regex helpers -/

/-- Join strings with a separator (`separator.join(...)`). -/
def joinSep (sep : String) : List String → String
  | [] => ""
  | [s] => s
  | s :: r => s ++ sep ++ joinSep sep r

/-- Concatenate strings (repeated `+=`). -/
def concatAll : List String → String
  | [] => ""
  | s :: r => s ++ concatAll r

/-- `soup.get_text(separator=' ', strip=True)`: stripped strings, empties
skipped, joined with one space. -/
def getTextSpace (f : Forest) : String :=
  joinSep " " (((Forest.strings f).map pyStrip).filter (fun s => s != ""))

/-- `re.sub(r'\s+', ' ', text)`: each maximal whitespace run becomes one
space. -/
def collapseWsRuns : List Char → List Char
  | [] => []
  | c :: cs =>
    if isPyWs c then ' ' :: collapseWsRuns (cs.dropWhile isPyWs)
    else c :: collapseWsRuns cs
termination_by l => l.length
decreasing_by
  · simp only [List.length_cons]
    exact Nat.lt_succ_of_le (List.dropWhile_sublist _).length_le
  · simp only [List.length_cons]
    exact Nat.lt_succ_of_le (Nat.le_refl _)

/-- Leftmost-match semantics of `re.sub` for the patterns `\n\s*\n` (`k = 2`)
and `\n\s*\n\s*\n` (`k = 3`): inside a maximal whitespace run holding at
least `k` newlines, the greedy match spans from the run's first newline to
its last and is replaced by two newlines; whitespace before the first and
after the last newline of the run is untouched, and scanning resumes after
the run. -/
def wsRunCollapse (k : Nat) : List Char → List Char
  | [] => []
  | c :: cs =>
    if isPyWs c then
      (if k ≤ (c :: cs.takeWhile isPyWs).count '\n' then
        (c :: cs.takeWhile isPyWs).takeWhile (fun x => x != '\n') ++ ['\n', '\n']
          ++ ((c :: cs.takeWhile isPyWs).reverse.takeWhile (fun x => x != '\n')).reverse
      else c :: cs.takeWhile isPyWs) ++ wsRunCollapse k (cs.dropWhile isPyWs)
    else c :: wsRunCollapse k cs
termination_by l => l.length
decreasing_by
  · simp only [List.length_cons]
    exact Nat.lt_succ_of_le (List.dropWhile_sublist _).length_le
  · simp only [List.length_cons]
    exact Nat.lt_succ_of_le (Nat.le_refl _)

/-- `extract_text_content(html)`: text with separator-space stripping, then
`\s+` collapsed to one space, then blank-line pairs collapsed, then strip.
The `if not html: return ""` guard is the empty-forest case. -/
def extract_text_content (f : Forest) : String :=
  match f with
  | [] => ""
  | _ => pyStrip ⟨wsRunCollapse 2 (collapseWsRuns (getTextSpace f).data)⟩

/-! ## Structured extraction (`extract_structured_content`) -/

/-- Heading tag names in the order the source iterates them. -/
def headingTags : List String := ["h1", "h2", "h3", "h4", "h5", "h6"]

/-- First element with the given tag (`soup.title`, `soup.h1`: `find` returns
the first match in document order, or `None`). -/
def firstTag (name : String) (f : Forest) : Option Node :=
  (Forest.findAll (fun t => t == name) f).head?

/-- Truthiness of `soup.title` / `soup.h1` in the source's `if`/`elif`:
`None` is falsy; a present tag follows BeautifulSoup tag truthiness, which is
its number of children (`len(tag.contents)`). -/
def tagTruthy : Option Node → Bool
  | none => false
  | some n => !n.children.isEmpty

/-- Text of an optional node (empty when absent). -/
def optText : Option Node → String
  | none => ""
  | some n => getTextStrip n

/-- Title extraction of `extract_structured_content`: the document title
element, else the first `h1`, else empty. -/
def titleOf (f : Forest) : String :=
  if tagTruthy (firstTag "title" f) then optText (firstTag "title" f)
  else if tagTruthy (firstTag "h1" f) then optText (firstTag "h1" f)
  else ""

/-- Heading extraction: for each tag `h1` … `h6` in turn, every element with
that tag in document order, recorded as (level tag, stripped text). -/
def headingsOf (f : Forest) : List (String × String) :=
  headingTags.flatMap (fun ht =>
    (Forest.findAll (fun t => t == ht) f).map (fun n => (ht, getTextStrip n)))

/-- Paragraph extraction: stripped text of every `p` element, empties
dropped. -/
def paragraphsOf (f : Forest) : List String :=
  ((Forest.findAll (fun t => t == "p") f).map getTextStrip).filter (fun s => s != "")

/-- Body of the list-extraction loop for one `ul`/`ol` element: the stripped
texts of all its descendant `li` elements (a nested list's items included,
`find_all('li')` being recursive), empties dropped; a list with no items is
skipped (`none`), the rest tagged with the element's own name. -/
def listEntry (l : Node) : Option (String × List String) :=
  let items := ((Forest.findAll (fun t => t == "li") l.children).map getTextStrip).filter
    (fun s => s != "")
  if items.isEmpty then none else some (l.tagOf, items)

/-- List extraction: `listEntry` over every `ul`/`ol` element in document
order. -/
def listsOf (f : Forest) : List (String × List String) :=
  (Forest.findAll (fun t => t == "ul" || t == "ol") f).filterMap listEntry

/-- Result record of `extract_structured_content`. -/
structure StructuredContent where
  title : String
  headings : List (String × String)
  paragraphs : List String
  lists : List (String × List String)
deriving Repr, DecidableEq

/-- `extract_structured_content(html)`; the `if not html` guard is the
empty-forest case. -/
def extract_structured_content (f : Forest) : StructuredContent :=
  match f with
  | [] => ⟨"", [], [], []⟩
  | _ => ⟨titleOf f, headingsOf f, paragraphsOf f, listsOf f⟩

/-! ## `src/crawl/clean/parsing.py` and `process_html_content` -/

/-- Truncation used by `extract_description`: the first 200 characters, an
ellipsis appended when the text was longer. -/
def truncate200 (s : String) : String :=
  ⟨s.data.take 200⟩ ++ (if 200 < s.data.length then "..." else "")

/-- `extract_description(response_text)` from `parsing.py`. The branch for
text starting with a JSON fence parses it with `json.loads`; that parser is
abstracted as the `jsonDesc` oracle, `some d` when parsing succeeds and
yields a description field, `none` otherwise (including raised and caught
exceptions); every other input takes the 200-character truncation path. -/
def extract_description (jsonDesc : String → Option String) (s : String) : String :=
  if pyStartsWith s "```json" then
    match jsonDesc s with
    | some d => d
    | none => truncate200 s
  else truncate200 s

/-- Result record of `process_html_content`. -/
structure ProcessedContent where
  cleaned_html : String
  text_content : String
  description : String
  structured_content : StructuredContent
  word_count : Nat
  char_count : Nat
deriving Repr, DecidableEq

/-- `process_html_content(html_content)`: clean, extract text, extract
structure, derive description, count words and characters. Re-parsing the
cleaned serialized tree is the identity in the tree model, so the extractors
are applied to `cleanForest f` directly. -/
def process_html_content (jsonDesc : String → Option String) (f : Forest) : ProcessedContent :=
  let cf := cleanForest f
  let text := extract_text_content cf
  { cleaned_html := renderForest cf
    text_content := text
    description := extract_description jsonDesc text
    structured_content := extract_structured_content cf
    word_count := (wordsOf text.data).length
    char_count := text.data.length }

/-! ## `src/crawl/clean/markdownfile_maker.py` -/

/-- Python `text.split('\n')`: split at each newline, keeping empty pieces. -/
def splitOnNl (s : String) : List String :=
  (s.data.splitOn '\n').map (fun l => ⟨l⟩)

/-- Heading level from a tag name, `int(element.name[1])`. -/
def headingLevel (t : String) : Nat :=
  match t.data with
  | _ :: c :: _ => c.toNat - '0'.toNat
  | _ => 0

/-- `convert_list_to_markdown` item loop: `enumerate(..., 1)` numbers every
direct-child item, also the ones skipped for empty text. -/
def mdListItems (ordered : Bool) : Nat → List Node → String
  | _, [] => ""
  | i, li :: rest =>
    (if getTextStrip li != "" then
      (if ordered then toString i ++ ". " else "- ") ++ getTextStrip li ++ "\n"
    else "") ++ mdListItems ordered (i + 1) rest

/-- `convert_list_to_markdown(list_element)`: only direct children
(`find_all('li', recursive=False)`), ordered lists numbered by position,
unordered dashed; a trailing newline is always appended. -/
def convert_list_to_markdown (l : Node) : String :=
  mdListItems (l.tagOf == "ol") 1 (l.children.filter (fun c => c.tagOf == "li")) ++ "\n"

/-- Per-element translation of `html_to_markdown`'s dispatch over
`soup.find_all()`. Text nodes never occur (`find_all` yields elements). -/
def mdOfElement (n : Node) : String :=
  match n with
  | .text _ => ""
  | .elem t a kids =>
    let txt := getTextStrip (.elem t a kids)
    if headingTags.contains t then
      ⟨List.replicate (headingLevel t) '#'⟩ ++ " " ++ txt ++ "\n\n"
    else if t == "p" then
      if txt != "" then txt ++ "\n\n" else ""
    else if t == "a" then
      let href := ((Node.elem t a kids).getAttr "href").getD "#"
      if txt != "" && href != "" then "[" ++ txt ++ "](" ++ href ++ ")" else ""
    else if t == "img" then
      let alt := ((Node.elem t a kids).getAttr "alt").getD "Image"
      let src := ((Node.elem t a kids).getAttr "src").getD ""
      if src != "" then "![" ++ alt ++ "](" ++ src ++ ")\n\n" else ""
    else if t == "ul" || t == "ol" then
      convert_list_to_markdown (.elem t a kids)
    else if t == "strong" || t == "b" then
      if txt != "" then "**" ++ txt ++ "**" else ""
    else if t == "em" || t == "i" then
      if txt != "" then "*" ++ txt ++ "*" else ""
    else if t == "code" then
      if txt != "" then "`" ++ txt ++ "`" else ""
    else if t == "pre" then
      if txt != "" then "```\n" ++ txt ++ "\n```\n\n" else ""
    else if t == "blockquote" then
      if txt != "" then
        joinSep "\n" (((splitOnNl txt).filter (fun l => pyStrip l != "")).map
          (fun l => "> " ++ l)) ++ "\n\n"
      else ""
    else if t == "hr" then "---\n\n"
    else if t == "br" then "\n"
    else ""

/-- `html_to_markdown(html_content)`: accumulate the translation of every
element of the document in preorder, then collapse runs of three or more
blank lines and strip; empty input short-circuits to the empty string. -/
def html_to_markdown (f : Forest) : String :=
  match f with
  | [] => ""
  | _ =>
    pyStrip ⟨wsRunCollapse 3 (concatAll ((Forest.findAll (fun _ => true) f).map mdOfElement)).data⟩

/-! ## `src/crawl/types.py`, `src/crawl/scraper.py` -/

/-- The `ScrapeResult` dataclass. -/
structure ScrapeResult where
  success : Bool
  url : String
  status_code : Int
  html : String
  error : Option String := none
  error_type : Option String := none
  message : Option String := none
  instructions : Option (List String) := none
  possible_causes : Option (List String) := none
deriving Repr, DecidableEq

/-- Outcome of one `crawler.arun` step of `_crawl_steps`, as delivered by the
external browser collaborator: `success`/`error_message` mirror the crawl4ai
result, `html` is the captured markup (empty models a falsy `result.html`),
`url` the (possibly redirected) final URL, `status_code` the HTTP status. -/
structure StepResult where
  success : Bool
  error_message : String
  html : String
  url : String
  status_code : Int
deriving Repr, DecidableEq

/-- The loop of `_crawl_steps` over the step outcomes, threading
`(final_html, final_url, status_code)` from `("", url, 0)`: a failing step
raises `RuntimeError` (the `Except.error` case); a falsy step `html` keeps
the previous capture. -/
def crawl_steps : List StepResult → String × String × Int → Except String (String × String × Int)
  | [], st => .ok st
  | r :: rs, (finalHtml, _, _) =>
    if r.success then
      crawl_steps rs ((if r.html == "" then finalHtml else r.html), r.url, r.status_code)
    else .error ("Crawl step failed: " ++ r.error_message)

/-- `scrape_webpage(url)` as a function of the three-step browser outcomes:
a raised step error is caught as a `scraping_failed` result; otherwise the
captured markup is passed to the wall detector, whose hit produces the
`login_required` result; otherwise the successful `ScrapeResult` of
`_crawl_steps` is returned. -/
def scrape_webpage (cfg : DetectionConfig) (url : String) (steps : List StepResult) :
    ScrapeResult :=
  match crawl_steps steps ("", url, 0) with
  | .error e =>
    { success := false
      url := url
      status_code := 0
      html := ""
      error := some e
      error_type := some "scraping_failed"
      message := some "Unable to access page automatically"
      possible_causes := some ["Login/authentication requirements", "Anti-bot protection",
        "Network restrictions", "Page loading issues"]
      instructions := some ["Visit the page manually in your browser",
        "Copy and paste the content you need"] }
  | .ok (finalHtml, finalUrl, statusCode) =>
    if check_for_login_screen cfg finalHtml then
      { success := false
        url := url
        status_code := 0
        html := ""
        error_type := some "login_required"
        message := some "Page requires authentication"
        instructions := some ["Visit the page manually in your browser",
          "Log in if required", "Copy and paste the content you need"] }
    else
      { success := true, url := finalUrl, status_code := statusCode, html := finalHtml }

/-! ## `src/crawl/orchestrator.py` -/

/-- Per-URL result dictionary of `process_single_url`; `none` in an outer
`Option` models an absent key (`temp_file` and `error_type` keys hold values
that can themselves be `None`). -/
structure UrlResult where
  status : String
  type : String
  url : String
  status_code : Option Int := none
  html_content : Option String := none
  html_length : Option Nat := none
  temp_file : Option (Option String) := none
  error_type : Option (Option String) := none
  error : Option String := none
  scraping_result : Option ScrapeResult := none
deriving Repr, DecidableEq

/-- Python `a or b` over an optional, falsy-empty first operand. -/
def pyOrElse (a : Option String) (b : String) : String :=
  match a with
  | some s => if s == "" then b else s
  | none => b

/-- `process_single_url(url)` as a function of the detection decision, the
collaborator outcomes and the temp-file layer (the download path's raw
`result` payload, being the abstracted collaborator outcome, is not
recorded): `isDownloadable` is
`check_if_downloadable`'s decision; `dlSuccess`/`dlTemp` abstract
`process_file_download` and `create_temp_document` (download path);
`mkTempMd` abstracts `TempFileManager.create_temp_markdown` (its result is
`None` on conversion failure); `sr` is the webpage path's `scrape_webpage`
result. Returns the result record and `temp_file_path`. -/
def process_single_url (isDownloadable : Bool) (dlSuccess : Bool) (dlTemp : Option String)
    (mkTempMd : String → String → Option String) (url : String) (sr : ScrapeResult) :
    UrlResult × Option String :=
  if isDownloadable then
    let tf := if dlSuccess then dlTemp else none
    ({ status := if dlSuccess then "download_success" else "download_failed"
       type := "file_download"
       url := url
       temp_file := some tf }, tf)
  else if sr.success then
    let tf := mkTempMd sr.html sr.url
    ({ status := "success"
       type := "webpage"
       url := sr.url
       status_code := some sr.status_code
       html_content := some sr.html
       html_length := some sr.html.length
       temp_file := some tf
       scraping_result := some sr }, tf)
  else
    ({ status := "failed"
       type := "webpage"
       url := url
       error_type := some sr.error_type
       error := some (pyOrElse sr.error (pyOrElse sr.message "Unknown error"))
       scraping_result := some sr }, none)

/-! ## Claims C10, C4, C8 -/

/-- C10: every `ScrapeResult` returned by `scrape_webpage` with
`success = False` — from wall detection as well as from any scraping
exception — has empty `html` and `status_code` 0, so retrieved markup is
never exposed through a failed result. -/
theorem failed_scrape_discards_markup (cfg : DetectionConfig) (url : String)
    (steps : List StepResult)
    (h : (scrape_webpage cfg url steps).success = false) :
    (scrape_webpage cfg url steps).html = ""
      ∧ (scrape_webpage cfg url steps).status_code = 0 := by
  unfold scrape_webpage at h ⊢
  cases hc : crawl_steps steps ("", url, 0) with
  | error e => simp [hc]
  | ok st =>
    obtain ⟨fh, fu, sc⟩ := st
    by_cases hw : check_for_login_screen cfg fh
    · simp [hc, hw]
    · simp [hc, hw] at h

/-- Witness for C10 on a navigation that fails at the first step. -/
theorem failed_scrape_discards_markup_witness :
    (scrape_webpage {} "https://example.com/a"
        [{ success := false, error_message := "timeout", html := "", url := "", status_code := 0 }]).success = false
      ∧ ((scrape_webpage {} "https://example.com/a"
            [{ success := false, error_message := "timeout", html := "", url := "", status_code := 0 }]).html = ""
          ∧ (scrape_webpage {} "https://example.com/a"
              [{ success := false, error_message := "timeout", html := "", url := "", status_code := 0 }]).status_code = 0) :=
  ⟨rfl, failed_scrape_discards_markup {} "https://example.com/a" _ rfl⟩

/-- C4: when the captured markup is flagged as an authentication wall, the
pipeline's result has status failed with error kind `login_required`, the
scrape result carries the fixed three-step remediation instructions and an
empty `html` field, no temp-file artifact is produced, and the result record
exposes no markup. -/
theorem login_wall_fails_pipeline (cfg : DetectionConfig) (url capturedHtml finalUrl : String)
    (statusCode : Int) (steps : List StepResult) (dlSuccess : Bool) (dlTemp : Option String)
    (mkTempMd : String → String → Option String)
    (hrun : crawl_steps steps ("", url, 0) = .ok (capturedHtml, finalUrl, statusCode))
    (hwall : check_for_login_screen cfg capturedHtml = true) :
    (scrape_webpage cfg url steps).html = ""
      ∧ (scrape_webpage cfg url steps).error_type = some "login_required"
      ∧ (scrape_webpage cfg url steps).instructions
          = some ["Visit the page manually in your browser", "Log in if required",
              "Copy and paste the content you need"]
      ∧ (process_single_url false dlSuccess dlTemp mkTempMd url
          (scrape_webpage cfg url steps)).fst.status = "failed"
      ∧ (process_single_url false dlSuccess dlTemp mkTempMd url
          (scrape_webpage cfg url steps)).fst.error_type = some (some "login_required")
      ∧ (process_single_url false dlSuccess dlTemp mkTempMd url
          (scrape_webpage cfg url steps)).fst.html_content = none
      ∧ (process_single_url false dlSuccess dlTemp mkTempMd url
          (scrape_webpage cfg url steps)).fst.temp_file = none
      ∧ (process_single_url false dlSuccess dlTemp mkTempMd url
          (scrape_webpage cfg url steps)).snd = none := by
  have hsr : scrape_webpage cfg url steps =
      { success := false
        url := url
        status_code := 0
        html := ""
        error_type := some "login_required"
        message := some "Page requires authentication"
        instructions := some ["Visit the page manually in your browser",
          "Log in if required", "Copy and paste the content you need"] } := by
    unfold scrape_webpage
    rw [hrun]
    simp [hwall]
  rw [hsr]
  unfold process_single_url
  simp

/-- Capture step used by the C4 witness: a successful navigation returning
markup with a strong wall phrase. -/
def loginWallStep : StepResult :=
  { success := true, error_message := "", html := "please log in to continue",
    url := "https://example.com/a", status_code := 200 }

/-- Witness for C4 on a crawl whose capture contains the phrase of a strong
wall indicator. -/
theorem login_wall_fails_pipeline_witness :
    crawl_steps [loginWallStep] ("", "https://example.com/a", 0)
        = .ok ("please log in to continue", "https://example.com/a", 200)
      ∧ check_for_login_screen {} "please log in to continue" = true
      ∧ ((scrape_webpage {} "https://example.com/a" [loginWallStep]).html = ""
          ∧ (scrape_webpage {} "https://example.com/a" [loginWallStep]).error_type
              = some "login_required") :=
  ⟨rfl, by decide,
    ((login_wall_fails_pipeline {} "https://example.com/a" "please log in to continue"
        "https://example.com/a" 200 [loginWallStep] false none (fun _ _ => some "/tmp/page.md")
        rfl (by decide)).1),
    ((login_wall_fails_pipeline {} "https://example.com/a" "please log in to continue"
        "https://example.com/a" 200 [loginWallStep] false none (fun _ _ => some "/tmp/page.md")
        rfl (by decide)).2.1)⟩

/-- C8: empty input markup yields an empty artifact, not an error: the
cleaner returns the empty string, structured extraction returns empty
title/headings/paragraphs/lists, the markdown conversion returns the empty
string, and `process_html_content` returns a record with every text field
empty and zero word/character counts. -/
theorem empty_markup_yields_empty_artifact (jsonDesc : String → Option String) :
    clean_html [] = ""
      ∧ extract_structured_content [] = ⟨"", [], [], []⟩
      ∧ html_to_markdown [] = ""
      ∧ process_html_content jsonDesc [] = ⟨"", "", "", ⟨"", [], [], []⟩, 0, 0⟩ := by
  refine ⟨?_, rfl, rfl, ?_⟩
  · simp [clean_html, cleanForest, removeTags, removeEmpty, renderForest]
  · simp [process_html_content, cleanForest, removeTags, removeEmpty, renderForest,
      extract_text_content, extract_structured_content, extract_description,
      pyStartsWith, isPrefixOfB, truncate200, wordsOf]

/-! ## Lemmas about the cleaner -/

theorem neg_of_eq_false {b : Bool} (h : b = false) : ¬(b = true) := by
  simp [h]

theorem joinStripC_append (a b : List String) :
    joinStripC (a ++ b) = joinStripC a ++ joinStripC b := by
  induction a with
  | nil => simp [joinStripC]
  | cons s r ih => simp [joinStripC, ih]

theorem strings_removeEmpty (f : Forest) :
    joinStripC (Forest.strings (removeEmpty f)) = joinStripC (Forest.strings f) := by
  induction f using Forest.scheme with
  | h1 => rw [removeEmpty.eq_1]
  | h2 s cs ih =>
    rw [removeEmpty.eq_2, Forest.strings.eq_2, Forest.strings.eq_2]
    simp only [joinStripC]
    rw [ih]
  | h3 t a kids cs ihk ihc =>
    cases hcond : (joinStripC (Forest.strings kids)).isEmpty
        && (Forest.findAll mediaTagP kids).isEmpty with
    | false =>
      rw [removeEmpty.eq_3, if_neg (neg_of_eq_false hcond)]
      rw [Forest.strings.eq_3, Forest.strings.eq_3, joinStripC_append, joinStripC_append,
        ihk, ihc]
    | true =>
      have he : joinStripC (Forest.strings kids) = [] :=
        List.isEmpty_iff.mp ((Bool.and_eq_true _ _).mp hcond).1
      rw [removeEmpty.eq_3, if_pos hcond, Forest.strings.eq_3, joinStripC_append, he, ihc,
        List.nil_append]

theorem findAll_removeEmpty_nil (p : String → Bool) (f : Forest) :
    Forest.findAll p f = [] → Forest.findAll p (removeEmpty f) = [] := by
  induction f using Forest.scheme with
  | h1 => intro h; rw [removeEmpty.eq_1]; exact h
  | h2 s cs ih =>
    intro h
    rw [Forest.findAll.eq_2] at h
    rw [removeEmpty.eq_2, Forest.findAll.eq_2]
    exact ih h
  | h3 t a kids cs ihk ihc =>
    intro h
    rw [Forest.findAll.eq_3] at h
    cases hp : p t with
    | true => rw [if_pos hp] at h; exact absurd h (by simp)
    | false =>
      rw [if_neg (neg_of_eq_false hp), List.nil_append] at h
      obtain ⟨h1, h2⟩ := List.append_eq_nil.mp h
      cases hcond : (joinStripC (Forest.strings kids)).isEmpty
          && (Forest.findAll mediaTagP kids).isEmpty with
      | true =>
        rw [removeEmpty.eq_3, if_pos hcond]
        exact ihc h2
      | false =>
        rw [removeEmpty.eq_3, if_neg (neg_of_eq_false hcond), Forest.findAll.eq_3,
          if_neg (neg_of_eq_false hp), List.nil_append, List.append_eq_nil]
        exact ⟨ihk h1, ihc h2⟩

theorem findAll_removeTags_nil (p : String → Bool) (f : Forest) :
    Forest.findAll p f = [] → Forest.findAll p (removeTags f) = [] := by
  induction f using Forest.scheme with
  | h1 => intro h; rw [removeTags.eq_1]; exact h
  | h2 s cs ih =>
    intro h
    rw [Forest.findAll.eq_2] at h
    rw [removeTags.eq_2, Forest.findAll.eq_2]
    exact ih h
  | h3 t a kids cs ihk ihc =>
    intro h
    rw [Forest.findAll.eq_3] at h
    cases hp : p t with
    | true => rw [if_pos hp] at h; exact absurd h (by simp)
    | false =>
      rw [if_neg (neg_of_eq_false hp), List.nil_append] at h
      obtain ⟨h1, h2⟩ := List.append_eq_nil.mp h
      cases hu : unwantedTags.contains t with
      | true =>
        rw [removeTags.eq_3, if_pos hu]
        exact ihc h2
      | false =>
        rw [removeTags.eq_3, if_neg (neg_of_eq_false hu), Forest.findAll.eq_3,
          if_neg (neg_of_eq_false hp), List.nil_append, List.append_eq_nil]
        exact ⟨ihk h1, ihc h2⟩

theorem findAll_removeTags_unwanted (f : Forest) :
    Forest.findAll (fun t => unwantedTags.contains t) (removeTags f) = [] := by
  induction f using Forest.scheme with
  | h1 => rw [removeTags.eq_1, Forest.findAll.eq_1]
  | h2 s cs ih => rw [removeTags.eq_2, Forest.findAll.eq_2]; exact ih
  | h3 t a kids cs ihk ihc =>
    cases hu : unwantedTags.contains t with
    | true =>
      rw [removeTags.eq_3, if_pos hu]
      exact ihc
    | false =>
      rw [removeTags.eq_3, if_neg (neg_of_eq_false hu), Forest.findAll.eq_3,
        if_neg (neg_of_eq_false hu), List.nil_append, List.append_eq_nil]
      exact ⟨ihk, ihc⟩

theorem removeTags_id_of_no_unwanted (f : Forest) :
    Forest.findAll (fun t => unwantedTags.contains t) f = [] → removeTags f = f := by
  induction f using Forest.scheme with
  | h1 => intro _; rw [removeTags.eq_1]
  | h2 s cs ih =>
    intro h
    rw [Forest.findAll.eq_2] at h
    rw [removeTags.eq_2, ih h]
  | h3 t a kids cs ihk ihc =>
    intro h
    rw [Forest.findAll.eq_3] at h
    cases hu : unwantedTags.contains t with
    | true => rw [if_pos hu] at h; exact absurd h (by simp)
    | false =>
      rw [if_neg (neg_of_eq_false hu), List.nil_append] at h
      obtain ⟨h1, h2⟩ := List.append_eq_nil.mp h
      rw [removeTags.eq_3, if_neg (neg_of_eq_false hu), ihk h1, ihc h2]

theorem removeEmpty_idem (f : Forest) :
    Forest.findAll mediaTagP f = [] → removeEmpty (removeEmpty f) = removeEmpty f := by
  induction f using Forest.scheme with
  | h1 => intro _; rw [removeEmpty.eq_1, removeEmpty.eq_1]
  | h2 s cs ih =>
    intro h
    rw [Forest.findAll.eq_2] at h
    rw [removeEmpty.eq_2, removeEmpty.eq_2, ih h]
  | h3 t a kids cs ihk ihc =>
    intro h
    rw [Forest.findAll.eq_3] at h
    cases hm : mediaTagP t with
    | true => rw [if_pos hm] at h; exact absurd h (by simp)
    | false =>
      rw [if_neg (neg_of_eq_false hm), List.nil_append] at h
      obtain ⟨h1, h2⟩ := List.append_eq_nil.mp h
      cases he : (joinStripC (Forest.strings kids)).isEmpty with
      | true =>
        have hcond : ((joinStripC (Forest.strings kids)).isEmpty
            && (Forest.findAll mediaTagP kids).isEmpty) = true := by
          rw [he, h1]
          rfl
        rw [removeEmpty.eq_3, if_pos hcond]
        exact ihc h2
      | false =>
        have hcond : ((joinStripC (Forest.strings kids)).isEmpty
            && (Forest.findAll mediaTagP kids).isEmpty) = false := by
          rw [he]
          rfl
        have hcond2 : ((joinStripC (Forest.strings (removeEmpty kids))).isEmpty
            && (Forest.findAll mediaTagP (removeEmpty kids)).isEmpty) = false := by
          rw [strings_removeEmpty, he]
          rfl
        rw [removeEmpty.eq_3, if_neg (neg_of_eq_false hcond), removeEmpty.eq_3,
          if_neg (neg_of_eq_false hcond2), ihk h1, ihc h2]

theorem cleanForest_idem (f : Forest) :
    Forest.findAll mediaTagP f = [] → cleanForest (cleanForest f) = cleanForest f := by
  intro h
  unfold cleanForest
  rw [removeTags_id_of_no_unwanted _ (findAll_removeEmpty_nil _ _ (findAll_removeTags_unwanted f))]
  exact removeEmpty_idem _ (findAll_removeTags_nil _ _ h)

/-! ## Claim C6 -/

/-- Markup whose only content is an image inside a container: the first
cleaning pass keeps the `div` (it has a media descendant) but removes the
bare `img` (no text, no media descendants of its own), so a second pass
removes the now-empty `div`. -/
def mediaOnlyDiv : Forest :=
  [Node.elem "div" [] [Node.elem "img" [("src", "x.png")] []]]

/-- Counterexample for C6 as stated: cleaning is not idempotent. Cleaning
`<div><img src="x.png"/></div>` yields `<div></div>`, and cleaning that
output again yields the empty document. -/
theorem clean_html_not_idempotent :
    clean_html mediaOnlyDiv = "<div></div>"
      ∧ clean_html (cleanForest mediaOnlyDiv) = ""
      ∧ clean_html (cleanForest mediaOnlyDiv) ≠ clean_html mediaOnlyDiv := by
  have e1 : clean_html mediaOnlyDiv = "<div></div>" := by
    simp [clean_html, cleanForest, removeTags, removeEmpty, mediaOnlyDiv, Forest.strings,
      Forest.findAll, joinStripC, mediaTagP, unwantedTags, renderForest, renderAttrs]
  have e2 : clean_html (cleanForest mediaOnlyDiv) = "" := by
    simp [clean_html, cleanForest, removeTags, removeEmpty, mediaOnlyDiv, Forest.strings,
      Forest.findAll, joinStripC, mediaTagP, unwantedTags, renderForest, renderAttrs]
  refine ⟨e1, e2, ?_⟩
  rw [e1, e2]
  decide

/-- C6 amended: cleaning is idempotent for markup containing no `img`, `br`
or `hr` element. (In general it is not: an element kept only for its media
descendants loses them — media leaf elements with no text are themselves
removed — and is removed by the next pass, as the counterexample shows.)
Re-parsing the serialized cleaned output is the identity of the tree model,
so the inner `Clean` of the claim is `cleanForest`. -/
theorem clean_idempotent_without_media (f : Forest)
    (h : Forest.findAll mediaTagP f = []) :
    clean_html (cleanForest f) = clean_html f := by
  unfold clean_html
  rw [cleanForest_idem f h]

/-- Media-free document for the C6 witness. -/
def plainDoc : Forest :=
  [Node.elem "p" [] [Node.text "hello"], Node.elem "script" [] [Node.text "x()"]]

/-- Witness for the amended C6 on a concrete media-free document. -/
theorem clean_idempotent_without_media_witness :
    Forest.findAll mediaTagP plainDoc = []
      ∧ clean_html (cleanForest plainDoc) = clean_html plainDoc :=
  ⟨by simp [plainDoc, Forest.findAll, mediaTagP],
   clean_idempotent_without_media plainDoc (by simp [plainDoc, Forest.findAll, mediaTagP])⟩

/-! ## Claim C5 -/

theorem listFlatMapCongr {α β : Type} {l : List α} {f g : α → List β}
    (h : ∀ a ∈ l, f a = g a) : l.flatMap f = l.flatMap g := by
  induction l with
  | nil => rfl
  | cons a as ih =>
    simp only [List.flatMap_cons]
    rw [h a (List.mem_cons_self a as), ih (fun x hx => h x (List.mem_cons_of_mem a hx))]

theorem findAll_filter (p q : String → Bool) (f : Forest) :
    (Forest.findAll p f).filter (fun n => q n.tagOf)
      = Forest.findAll (fun t => p t && q t) f := by
  induction f using Forest.scheme with
  | h1 => rw [Forest.findAll.eq_1, Forest.findAll.eq_1, List.filter_nil]
  | h2 s cs ih => rw [Forest.findAll.eq_2, Forest.findAll.eq_2]; exact ih
  | h3 t a kids cs ihk ihc =>
    rw [Forest.findAll.eq_3, Forest.findAll.eq_3, List.filter_append, List.filter_append,
      ihk, ihc]
    cases hp : p t <;> cases hq : q t <;>
      simp [hp, hq, Node.tagOf, List.filter]

theorem tagOf_mem_findAll (p : String → Bool) (f : Forest) (n : Node) :
    n ∈ Forest.findAll p f → p n.tagOf = true := by
  induction f using Forest.scheme with
  | h1 => intro h; rw [Forest.findAll.eq_1] at h; cases h
  | h2 s cs ih => intro h; rw [Forest.findAll.eq_2] at h; exact ih h
  | h3 t a kids cs ihk ihc =>
    intro h
    rw [Forest.findAll.eq_3] at h
    rcases List.mem_append.mp h with h' | hc
    · rcases List.mem_append.mp h' with hh | hk
      · cases hp : p t
        · rw [if_neg (neg_of_eq_false hp)] at hh
          cases hh
        · rw [if_pos hp] at hh
          have hn : n = Node.elem t a kids := by simpa using hh
          rw [hn]
          simpa [Node.tagOf] using hp
      · exact ihk hk
    · exact ihc hc

/-- Document-order heading list: every `h1`–`h6` element in one preorder
pass, with its tag and stripped text; this is the order the claim asserts
for the `headings` field. -/
def docOrderHeadings (f : Forest) : List (String × String) :=
  (Forest.findAll (fun t => headingTags.contains t) f).map (fun n => (n.tagOf, getTextStrip n))

/-- C5 amended: the `headings` field lists all headings of levels 1–6
grouped by level — all `h1` elements first, then `h2`, …, then `h6` — with
document order preserved only within each level group, not across levels. -/
theorem headings_grouped_by_level (f : Forest) :
    (extract_structured_content f).headings
      = headingTags.flatMap (fun ht =>
          (docOrderHeadings f).filter (fun pr => pr.fst == ht)) := by
  cases f with
  | nil =>
    have e : docOrderHeadings [] = [] := by
      rw [docOrderHeadings, Forest.findAll.eq_1, List.map_nil]
    rw [e]
    simp [extract_structured_content, headingTags]
  | cons n rest =>
    have e : (extract_structured_content (n :: rest)).headings = headingsOf (n :: rest) := rfl
    rw [e]
    unfold headingsOf docOrderHeadings
    apply listFlatMapCongr
    intro ht hmem
    have hc : headingTags.contains ht = true := by simpa using hmem
    rw [List.filter_map]
    have hpred : ((fun pr : String × String => pr.fst == ht)
        ∘ (fun m : Node => (m.tagOf, getTextStrip m))) = (fun m : Node => m.tagOf == ht) := rfl
    rw [hpred]
    rw [show List.filter (fun m : Node => m.tagOf == ht)
          (Forest.findAll (fun t => headingTags.contains t) (n :: rest))
        = Forest.findAll (fun t => headingTags.contains t && (t == ht)) (n :: rest) from
      findAll_filter (fun t => headingTags.contains t) (fun t => t == ht) (n :: rest)]
    have hpe : (fun t => headingTags.contains t && (t == ht)) = (fun t => t == ht) := by
      funext t
      cases hte : t == ht
      · rw [Bool.and_false]
      · rw [Bool.and_true]
        have ht' : t = ht := eq_of_beq hte
        rw [ht', hc]
    rw [hpe]
    apply List.map_congr_left
    intro m hm
    have htag : (m.tagOf == ht) = true := tagOf_mem_findAll _ _ _ hm
    rw [eq_of_beq htag]

/-- Document with an `h2` before an `h1`, on which grouped-by-level order
differs from document order. -/
def cdoc5 : Forest :=
  [Node.elem "h2" [] [Node.text "A"], Node.elem "h1" [] [Node.text "B"]]

/-- Counterexample for C5 as stated: on `<h2>A</h2><h1>B</h1>` the
extracted headings list is `[(h1, B), (h2, A)]`, not the document order
`[(h2, A), (h1, B)]` — the earlier `h2` heading appears later in the list. -/
theorem headings_not_in_document_order :
    (extract_structured_content cdoc5).headings = [("h1", "B"), ("h2", "A")]
      ∧ docOrderHeadings cdoc5 = [("h2", "A"), ("h1", "B")]
      ∧ (extract_structured_content cdoc5).headings ≠ docOrderHeadings cdoc5 := by
  have e1 : (extract_structured_content cdoc5).headings = [("h1", "B"), ("h2", "A")] := by
    simp [cdoc5, extract_structured_content, headingsOf, headingTags, Forest.findAll,
      getTextStrip, Forest.strings, joinStripC]
    decide
  have e2 : docOrderHeadings cdoc5 = [("h2", "A"), ("h1", "B")] := by
    simp [cdoc5, docOrderHeadings, headingTags, Forest.findAll, getTextStrip,
      Forest.strings, joinStripC, Node.tagOf]
    decide
  refine ⟨e1, e2, ?_⟩
  rw [e1, e2]
  decide

/-! ## Claim C9 -/

/-- C9 amended: every entry of the extracted `lists` field is tagged `ul` or
`ol` by its element's own kind, is non-empty, and its items are the stripped
texts of all descendant `li` elements of that list element — nested
sub-lists included, each item's text including its nested sub-lists' text —
with empty texts dropped. -/
theorem lists_items_include_nested (f : Forest) (pr : String × List String)
    (hmem : pr ∈ (extract_structured_content f).lists) :
    (pr.fst = "ul" ∨ pr.fst = "ol") ∧ pr.snd ≠ []
      ∧ ∃ l ∈ Forest.findAll (fun t => t == "ul" || t == "ol") f,
          pr.fst = l.tagOf
            ∧ pr.snd = ((Forest.findAll (fun t => t == "li") l.children).map
                getTextStrip).filter (fun s => s != "") := by
  cases f with
  | nil =>
    rw [show (extract_structured_content []).lists = [] from rfl] at hmem
    cases hmem
  | cons n rest =>
    rw [show (extract_structured_content (n :: rest)).lists = listsOf (n :: rest) from rfl]
      at hmem
    unfold listsOf at hmem
    obtain ⟨l, hl, he⟩ := List.mem_filterMap.mp hmem
    unfold listEntry at he
    by_cases hi : (((Forest.findAll (fun t => t == "li") l.children).map
        getTextStrip).filter (fun s => s != "")).isEmpty
    · rw [if_pos hi] at he
      cases he
    · rw [if_neg hi] at he
      have hpr : pr = (l.tagOf,
          ((Forest.findAll (fun t => t == "li") l.children).map
            getTextStrip).filter (fun s => s != "")) := (Option.some.inj he).symm
      have htag : (l.tagOf == "ul" || l.tagOf == "ol") = true :=
        tagOf_mem_findAll _ _ _ hl
      refine ⟨?_, ?_, l, hl, ?_, ?_⟩
      · rcases Bool.or_eq_true _ _ |>.mp htag with h | h
        · exact Or.inl (by rw [hpr]; exact eq_of_beq h)
        · exact Or.inr (by rw [hpr]; exact eq_of_beq h)
      · rw [hpr]
        intro hnil
        apply hi
        rw [show (List.filter (fun s => s != "") (List.map getTextStrip
            (Forest.findAll (fun t => t == "li") l.children))) = [] from hnil]
        rfl
      · rw [hpr]
      · rw [hpr]

/-- Inner `li` of the nested-list document. -/
def cdoc9li : Node :=
  Node.elem "li" [] [Node.text "A", Node.elem "ul" [] [Node.elem "li" [] [Node.text "B"]]]

/-- Nested-list document `<ul><li>A<ul><li>B</li></ul></li></ul>` for the
C9 counterexample and witness. -/
def cdoc9 : Forest := [Node.elem "ul" [] [cdoc9li]]

theorem cdoc9_findAll_lists :
    Forest.findAll (fun t => t == "ul" || t == "ol") cdoc9
      = [Node.elem "ul" [] [cdoc9li], Node.elem "ul" [] [Node.elem "li" [] [Node.text "B"]]] := by
  simp [cdoc9, cdoc9li, Forest.findAll]

theorem cdoc9_listEntry_outer :
    listEntry (Node.elem "ul" [] [cdoc9li]) = some ("ul", ["AB", "B"]) := by
  simp [listEntry, cdoc9li, Forest.findAll, Node.children, Node.tagOf, getTextStrip,
    Forest.strings, joinStripC]
  decide

theorem cdoc9_listEntry_inner :
    listEntry (Node.elem "ul" [] [Node.elem "li" [] [Node.text "B"]])
      = some ("ul", ["B"]) := by
  simp [listEntry, Forest.findAll, Node.children, Node.tagOf, getTextStrip,
    Forest.strings, joinStripC]
  decide

theorem cdoc9_lists_eval :
    (extract_structured_content cdoc9).lists = [("ul", ["AB", "B"]), ("ul", ["B"])] := by
  rw [show (extract_structured_content cdoc9).lists = listsOf cdoc9 from rfl]
  unfold listsOf
  rw [cdoc9_findAll_lists]
  simp [cdoc9_listEntry_outer, cdoc9_listEntry_inner]

/-- Descendant strings of a forest with `ul`/`ol` subtrees excluded — the
item text the claim describes (direct text only, sub-list text excluded). -/
def stringsNoSublist : Forest → List String
  | [] => []
  | .text s :: cs => s :: stringsNoSublist cs
  | .elem t _ kids :: cs =>
      (if t == "ul" || t == "ol" then [] else stringsNoSublist kids) ++ stringsNoSublist cs

/-- Extraction of one list element as the claim words it (for refutation):
items come from direct child `li` elements only, with nested sub-list text
excluded from item text. -/
def claimListEntry (l : Node) : Option (String × List String) :=
  let items := ((l.children.filter (fun c => c.tagOf == "li")).map
    (fun li => (⟨joinStripC (stringsNoSublist li.children)⟩ : String))).filter
    (fun s => s != "")
  if items.isEmpty then none else some (l.tagOf, items)

/-- Extraction as the claim words it, over the whole document. -/
def claimDirectLists (f : Forest) : List (String × List String) :=
  (Forest.findAll (fun t => t == "ul" || t == "ol") f).filterMap claimListEntry

theorem cdoc9_claim_lists_eval :
    claimDirectLists cdoc9 = [("ul", ["A"]), ("ul", ["B"])] := by
  unfold claimDirectLists
  rw [cdoc9_findAll_lists]
  have h1 : claimListEntry (Node.elem "ul" [] [cdoc9li]) = some ("ul", ["A"]) := by
    simp [claimListEntry, cdoc9li, stringsNoSublist, joinStripC, Node.children, Node.tagOf]
    decide
  have h2 : claimListEntry (Node.elem "ul" [] [Node.elem "li" [] [Node.text "B"]])
      = some ("ul", ["B"]) := by
    simp [claimListEntry, stringsNoSublist, joinStripC, Node.children, Node.tagOf]
    decide
  simp [h1, h2]

/-- Counterexample for C9 as stated: on the nested list the code's items are
all descendant `li` texts with nested text included — `["AB", "B"]` for the
outer list — while the claim's direct-children/no-sub-list-text reading
yields `["A"]`. -/
theorem lists_not_direct_children_only :
    (extract_structured_content cdoc9).lists = [("ul", ["AB", "B"]), ("ul", ["B"])]
      ∧ claimDirectLists cdoc9 = [("ul", ["A"]), ("ul", ["B"])]
      ∧ (extract_structured_content cdoc9).lists ≠ claimDirectLists cdoc9 := by
  refine ⟨cdoc9_lists_eval, cdoc9_claim_lists_eval, ?_⟩
  rw [cdoc9_lists_eval, cdoc9_claim_lists_eval]
  decide

/-- Witness for the amended C9 at the outer list entry of the nested
document. -/
theorem lists_items_include_nested_witness :
    ("ul", ["AB", "B"]) ∈ (extract_structured_content cdoc9).lists
      ∧ ((("ul", ["AB", "B"]) : String × List String).fst = "ul"
            ∨ (("ul", ["AB", "B"]) : String × List String).fst = "ol")
        ∧ (("ul", ["AB", "B"]) : String × List String).snd ≠ []
        ∧ ∃ l ∈ Forest.findAll (fun t => t == "ul" || t == "ol") cdoc9,
            (("ul", ["AB", "B"]) : String × List String).fst = l.tagOf
              ∧ (("ul", ["AB", "B"]) : String × List String).snd
                  = ((Forest.findAll (fun t => t == "li") l.children).map
                      getTextStrip).filter (fun s => s != "") := by
  have hmem : ("ul", ["AB", "B"]) ∈ (extract_structured_content cdoc9).lists := by
    rw [cdoc9_lists_eval]
    exact List.mem_cons_self _ _
  exact ⟨hmem, lists_items_include_nested cdoc9 ("ul", ["AB", "B"]) hmem⟩
